import Mathlib

/-!
# Single-timer multi-channel servo PWM driver (`06_pwm/pwm.c`)

A shallow embedding of the servo pulse scheduler of `06_pwm/pwm.c` and the
properties of its configuration API and of its Timer1 compare-match handler.

Conventions of the embedding.

* The target is an 8-bit AVR (`<avr/io.h>`): `int` and `unsigned int` are 16 bits
  wide, `long` is 32 bits wide.  Machine integers are `Nat` / `Int` and every
  place where the C code truncates or wraps carries an explicit `%`.
* The file-level globals `servos` and `active` and the hardware registers the
  code touches (`PORTB`, `TCNT1`, `OCR1A`, the global interrupt flag of `SREG`)
  are the fields of one `State` record which every function receives and returns.
* Arguments are natural numbers (integers for `int16_t`); a caller passes values
  that fit the C parameter type.
* The interrupt handler is atomic: the counter `TCNT1` has one value during an
  invocation.  The handler reads the channel table at the index `active`; an
  access outside the table makes the embedded handler return `none`.
-/

namespace ServoPwm

/-! ## Constants (`#define`s of the source) -/

/-- Servo duty cycle is 20ms (`DUTY_CYCLE`, unused by the code). -/
abbrev DUTY_CYCLE : Nat := 20000

/-- Frame period in timer ticks (`UPDATE_INTERVAL`). -/
abbrev UPDATE_INTERVAL : Nat := 40000

/-- Idle margin in timer ticks (`UPDATE_WAIT`). -/
abbrev UPDATE_WAIT : Nat := 5

/-- Shortest default pulse in microseconds (`MIN_PULSE`). -/
abbrev MIN_PULSE : Nat := 1300

/-- Stop pulse in microseconds (`MID_PULSE`). -/
abbrev MID_PULSE : Nat := 1500

/-- Longest default pulse in microseconds (`MAX_PULSE`). -/
abbrev MAX_PULSE : Nat := 1700

/-- Number of entries of the channel table (`ACTIVE_SERVOS`). -/
abbrev ACTIVE_SERVOS : Nat := 2

/-! ## Data model -/

/-- One channel descriptor, `struct servo`: `pin` is `uint8_t`, `tcnt` is
`uint32_t` (pulse width in ticks), `min` and `max` are `uint16_t` (microseconds),
`trim` is `int16_t` (microseconds). -/
structure servo where
  pin : Nat
  tcnt : Nat
  min : Nat
  max : Nat
  trim : Int
  deriving DecidableEq, Repr

/-- The globals of `pwm.c` and the registers it uses: the table
`servos[ACTIVE_SERVOS]`, the scheduler index `active` (`volatile int8_t`), the
output port `PORTB` (8 bits), the Timer1 counter `TCNT1` and compare register
`OCR1A` (16 bits each) and the global interrupt-enable flag of `SREG`. -/
structure State where
  servos : Fin ACTIVE_SERVOS → servo
  active : Int
  PORTB : Nat
  TCNT1 : Nat
  OCR1A : Nat
  SREG_I : Bool
  deriving DecidableEq

/-- The statically initialised globals: both table entries are
`{0, MID_PULSE, 0, 0, 0}` and `active = 0`; the registers are given. -/
def initial (portb tcnt1 ocr1a : Nat) (i : Bool) : State :=
  { servos := fun _ => { pin := 0, tcnt := MID_PULSE, min := 0, max := 0, trim := 0 }
    active := 0
    PORTB := portb
    TCNT1 := tcnt1
    OCR1A := ocr1a
    SREG_I := i }

/-- Replace entry `i` of the channel table. -/
def setServo (s : State) (i : Fin ACTIVE_SERVOS) (v : servo) : State :=
  { s with servos := fun j => if j = i then v else s.servos j }

/-! ## Configuration API -/

namespace pwm

/-- Embedding of `pwm::connect(uint8_t which, uint8_t pin)`. -/
def connect (s : State) (which pin : Nat) : State :=
  if h : which ≥ ACTIVE_SERVOS then s
  else
    let i : Fin ACTIVE_SERVOS := ⟨which, Nat.lt_of_not_ge h⟩
    setServo s i { s.servos i with pin := pin, min := MIN_PULSE, max := MAX_PULSE, trim := 0 }

/-- Embedding of `pwm::set_limits(uint8_t which, uint16_t min, uint16_t max)`. -/
def set_limits (s : State) (which min max : Nat) : State :=
  if h : which ≥ ACTIVE_SERVOS then s
  else
    let i : Fin ACTIVE_SERVOS := ⟨which, Nat.lt_of_not_ge h⟩
    let s1 := if min > 0 then setServo s i { s.servos i with min := min } else s
    if max > 0 then setServo s1 i { s1.servos i with max := max } else s1

/-- Embedding of `pwm::trim(uint8_t which, int16_t trim)`. -/
def trim (s : State) (which : Nat) (trim : Int) : State :=
  if h : which ≥ ACTIVE_SERVOS then s
  else
    let i : Fin ACTIVE_SERVOS := ⟨which, Nat.lt_of_not_ge h⟩
    setServo s i { s.servos i with trim := trim }

/-- Embedding of `pwm::set_servo(uint8_t which, uint32_t us)`.

`us += trim` adds the sign-extended `int16_t` in 32-bit unsigned arithmetic, the
two comparisons are unsigned 32-bit comparisons against the zero-extended
bounds, `us *= 2` is a 32-bit multiplication.  The store is bracketed by
`saved_SREG = SREG; cli();` and `SREG = saved_SREG; sei();`. -/
def set_servo (s : State) (which us : Nat) : State :=
  if h : which ≥ ACTIVE_SERVOS then s
  else
    let i : Fin ACTIVE_SERVOS := ⟨which, Nat.lt_of_not_ge h⟩
    let us1 : Nat := (((us : Int) + (s.servos i).trim) % 4294967296).toNat
    let us2 : Nat :=
      if us1 < (s.servos i).min then (s.servos i).min
      else if us1 > (s.servos i).max then (s.servos i).max
      else us1
    let us3 : Nat := (us2 * 2) % 4294967296
    let saved_SREG := s.SREG_I
    let s1 := { s with SREG_I := false }
    let s2 := setServo s1 i { s1.servos i with tcnt := us3 }
    let s3 := { s2 with SREG_I := saved_SREG }
    { s3 with SREG_I := true }

/-- Embedding of `pwm::get_servo(uint8_t which)`: the returned `uint16_t` and the
(untouched) state. -/
def get_servo (s : State) (which : Nat) : Nat × State :=
  if h : which ≥ ACTIVE_SERVOS then (0, s)
  else ((s.servos ⟨which, Nat.lt_of_not_ge h⟩).tcnt % 65536, s)

end pwm

/-! ## The Timer1 compare-match handler -/

/-- The macro `_BV(bit)`, that is `1 << bit` on a 16-bit `int`, as a bit
pattern (a shift by 16 or more leaves no bit). -/
def _BV (bit : Nat) : Nat := (1 <<< bit) % 65536

/-- The statement `PORTB &= ~_BV(pin)`: complement on 16 bits, conjunction,
truncation to the 8-bit register. -/
def portClear (portb pin : Nat) : Nat := (portb &&& (65535 - _BV pin)) % 256

/-- The statement `PORTB |= _BV(pin)`, truncated to the 8-bit register. -/
def portSet (portb pin : Nat) : Nat := (portb ||| _BV pin) % 256

/-- Conversion of an `int` to `int8_t` (two-complement wrap-around), as done by
`active++`. -/
def toInt8 (x : Int) : Int := (x + 128) % 256 - 128

/-- The table access `servos[i]` with a signed index: defined only inside the
table. -/
def servoAt (s : State) (i : Int) : Option servo :=
  if h : 0 ≤ i ∧ i < (ACTIVE_SERVOS : Int) then some (s.servos ⟨i.toNat, by omega⟩) else none

/-- Embedding of `timer1ISR(void)`.

`TCNT1 + servos[active].tcnt` is a 32-bit unsigned sum truncated to the 16-bit
register `OCR1A`; `TCNT1 + UPDATE_WAIT` is a 16-bit unsigned sum, compared with
the `long` constant `UPDATE_INTERVAL`. -/
def timer1ISR (s : State) : Option State := do
  let s1 ←
    if s.active < (ACTIVE_SERVOS : Int) then do
      let sv ← servoAt s s.active
      pure { s with PORTB := portClear s.PORTB sv.pin }
    else
      pure { s with active := -1, TCNT1 := 0 }
  let s2 := { s1 with active := toInt8 (s1.active + 1) }
  if s2.active < (ACTIVE_SERVOS : Int) then do
    let sv ← servoAt s2 s2.active
    let s3 := { s2 with OCR1A := ((s2.TCNT1 + sv.tcnt) % 4294967296) % 65536 }
    pure { s3 with PORTB := portSet s3.PORTB sv.pin }
  else
    if (s2.TCNT1 + UPDATE_WAIT) % 65536 < UPDATE_INTERVAL then
      pure { s2 with OCR1A := UPDATE_INTERVAL }
    else
      pure { s2 with OCR1A := (s2.TCNT1 + UPDATE_WAIT) % 65536 }

/-- The hardware between two invocations: the free-running counter reaches the
value `c`. -/
def count (s : State) (c : Nat) : State := { s with TCNT1 := c % 65536 }

/-- The hardware between two invocations of the handler: the counter runs up
to the programmed compare value, which raises the compare-match interrupt. -/
def compareMatch (s : State) : State := { s with TCNT1 := s.OCR1A }

/-! ## Executions -/

/-- One event of an execution: a call of the configuration API, an invocation
of the interrupt handler, or the hardware counter taking a new value. -/
inductive Op where
  | connect (which pin : Nat)
  | set_limits (which min max : Nat)
  | trim (which : Nat) (t : Int)
  | set_servo (which us : Nat)
  | get_servo (which : Nat)
  | timer1ISR
  | count (c : Nat)
  deriving DecidableEq, Repr

/-- Effect of one event; only the interrupt handler can fail. -/
def Op.apply : Op → State → Option State
  | .connect which pin, s => some (pwm.connect s which pin)
  | .set_limits which mn mx, s => some (pwm.set_limits s which mn mx)
  | .trim which t, s => some (pwm.trim s which t)
  | .set_servo which us, s => some (pwm.set_servo s which us)
  | .get_servo which, s => some (pwm.get_servo s which).2
  | .timer1ISR, s => ServoPwm.timer1ISR s
  | .count c, s => some (ServoPwm.count s c)

/-- Effect of a finite sequence of events, first event first. -/
def run : List Op → State → Option State
  | [], s => some s
  | op :: ops, s => (op.apply s).bind (run ops)

/-- Channel `i` drives its pin high: bit `pin` of `PORTB` is set. -/
def pinHigh (s : State) (i : Fin ACTIVE_SERVOS) : Bool :=
  s.PORTB.testBit (s.servos i).pin

/-! ## Specification-side notions -/

/-- Mathematical clamp of the specification: `x` limited to the inclusive range
`[lo, hi]`. -/
def clamp (x lo hi : Int) : Int :=
  if x < lo then lo else if hi < x then hi else x

/-- Channel 0 connected to pin 1 (bounds 1300..1700) and trimmed by -1. -/
def trimmedState : State :=
  pwm.trim (pwm.connect (initial 0 0 0 true) 0 1) 0 (-1)

/-- Start-up state with channel 0 connected to pin 1 and channel 1 to pin 2. -/
def connectedState : State :=
  pwm.connect (pwm.connect (initial 0 0 0 true) 0 1) 1 2

/-- A pass-complete state: `active = ACTIVE_SERVOS`, channel 0 on pin 1 with a
width of 1500 ticks, channel 1 on pin 2 with a width of 1300 ticks, all pins
low. -/
def passCompleteState : State :=
  { servos := fun i =>
      if i = 0 then { pin := 1, tcnt := 1500, min := 500, max := 1700, trim := 0 }
      else { pin := 2, tcnt := 1300, min := 500, max := 1700, trim := 0 }
    active := 2
    PORTB := 0
    TCNT1 := 40000
    OCR1A := 40000
    SREG_I := true }

/-- The event leaves every channel's pin assignment alone: it is not a
`connect`. -/
def Op.keepsPins : Op → Bool
  | .connect _ _ => false
  | _ => true

/-- The event reconfigures the bounds of channel `ch`: it is a `connect` or a
`set_limits` addressed to `ch`. -/
def Op.reconfigures (ch : Nat) : Op → Bool
  | .connect which _ => decide (which = ch)
  | .set_limits which _ _ => decide (which = ch)
  | _ => false

/-- The stored width of channel `i` lies in its current range, in ticks. -/
def inRange (s : State) (i : Fin ACTIVE_SERVOS) : Prop :=
  2 * (s.servos i).min ≤ (s.servos i).tcnt ∧ (s.servos i).tcnt ≤ 2 * (s.servos i).max

instance (s : State) (i : Fin ACTIVE_SERVOS) : Decidable (inRange s i) := by
  unfold inRange
  infer_instance

/-- Scheduler invariant behind mutual exclusion: the index is one of 0, 1, 2,
the two channels use different pins, and the pin of every channel other than
the one denoted by `active` is low. -/
def exclusive (s : State) : Prop :=
  (0 ≤ s.active ∧ s.active ≤ 2) ∧
  (s.servos 0).pin ≠ (s.servos 1).pin ∧
  (s.active ≠ 0 → pinHigh s 0 = false) ∧
  (s.active ≠ 1 → pinHigh s 1 = false)

/-- An execution from start-up with long pulses: both channels are connected,
their upper bounds raised to 20000 microseconds, channel 0 is commanded with
20000 microseconds (40000 ticks) and channel 1 with 12767 microseconds (25534
ticks).  Two invocations finish the truncated first pass, the third starts a
pass at tick 0, the fourth runs at the compare value 40000 and the counter then
reaches the next compare value 65534, where channel 1's pulse ends. -/
def overrunRun : List Op :=
  [Op.connect 0 1, Op.connect 1 2, Op.set_limits 0 0 20000, Op.set_limits 1 0 20000,
    Op.set_servo 0 20000, Op.set_servo 1 12767, Op.timer1ISR, Op.timer1ISR, Op.timer1ISR,
    Op.count 40000, Op.timer1ISR, Op.count 65534]

/-- Channel 1 is being pulsed (`active = 1`) and the counter stands at 2800. -/
def endOfPulseState : State :=
  { connectedState with active := 1, TCNT1 := 2800, PORTB := 4 }

/-- An execution from start-up: both channels are connected and commanded with
1500 microseconds, then the lower bound of channel 0 is raised to 1600 and the
handler runs three times (the third invocation starts channel 0's pulse). -/
def raisedBoundRun : List Op :=
  [Op.connect 0 1, Op.connect 1 2, Op.set_servo 0 1500, Op.set_servo 1 1500,
    Op.set_limits 0 1600 0, Op.timer1ISR, Op.timer1ISR, Op.timer1ISR]

/-- Invariant of a channel between two reconfigurations of its bounds. -/
def rangeKept (ch : Fin ACTIVE_SERVOS) (s : State) : Prop :=
  (0 ≤ s.active ∧ s.active ≤ 2) ∧
  (s.servos ch).min ≤ (s.servos ch).max ∧ (s.servos ch).max ≤ 65535 ∧ inRange s ch

/-- Channel 0 connected to pin 1 with its upper bound raised to 40000
microseconds (bounds 1300..40000, trim 0). -/
def wideState : State :=
  pwm.set_limits (pwm.connect (initial 0 0 0 true) 0 1) 0 0 40000

/-- The states `set_servo` passes through on a valid channel, in program order:
after `cli()`, after the store `servos[which].tcnt = us`, after
`SREG = saved_SREG`, after `sei()`.  Empty for an invalid channel id, where the
function returns before the critical section. -/
def pwm.set_servo_steps (s : State) (which us : Nat) : List State :=
  if h : which ≥ ACTIVE_SERVOS then []
  else
    let i : Fin ACTIVE_SERVOS := ⟨which, Nat.lt_of_not_ge h⟩
    let us1 : Nat := (((us : Int) + (s.servos i).trim) % 4294967296).toNat
    let us2 : Nat :=
      if us1 < (s.servos i).min then (s.servos i).min
      else if us1 > (s.servos i).max then (s.servos i).max
      else us1
    let us3 : Nat := (us2 * 2) % 4294967296
    let saved_SREG := s.SREG_I
    let s1 := { s with SREG_I := false }
    let s2 := setServo s1 i { s1.servos i with tcnt := us3 }
    let s3 := { s2 with SREG_I := saved_SREG }
    let s4 := { s3 with SREG_I := true }
    [s1, s2, s3, s4]

/-- Start-up state with interrupts disabled, channel 0 connected to pin 1 and
channel 1 to pin 2. -/
def disabledState : State :=
  pwm.connect (pwm.connect (initial 0 0 0 false) 0 1) 1 2

/-- Channel 0 on pin 3 with bounds 900..2100 and trim 40, as left by earlier
configuration calls. -/
def configuredState : State :=
  pwm.trim (pwm.set_limits (pwm.connect (initial 0 0 0 true) 0 3) 0 900 2100) 0 40

/-! ## Basic facts about the configuration API -/

theorem not_ge_of_fin (i : Fin ACTIVE_SERVOS) : ¬ i.val ≥ ACTIVE_SERVOS :=
  Nat.not_le_of_lt i.isLt

/-- Reading a channel back after commanding it: the stored width is the code's
clamp of the wrapped sum, doubled; `get_servo` truncates it to 16 bits. -/
theorem get_servo_set_servo (s : State) (i : Fin ACTIVE_SERVOS) (us : Nat) :
    (pwm.get_servo (pwm.set_servo s i.val us) i.val).1 =
      ((if (((us : Int) + (s.servos i).trim) % 4294967296).toNat < (s.servos i).min
          then (s.servos i).min
        else if (((us : Int) + (s.servos i).trim) % 4294967296).toNat > (s.servos i).max
          then (s.servos i).max
        else (((us : Int) + (s.servos i).trim) % 4294967296).toNat) * 2 % 4294967296) % 65536 := by
  simp [pwm.get_servo, pwm.set_servo, setServo, not_ge_of_fin]

/-! ## Claims -/

/-- C1 (as amended): for every valid channel, `get_servo` after `set_servo` with
width `w` returns exactly `2 * clamp (w + t) min max` provided the sum `w + t`
does not wrap (`0 ≤ w + t < 2^32`), the bounds are ordered (`min ≤ max`) and the
clamped width is at most 32767 so that its double fits the 16-bit result. -/
theorem set_servo_get_servo_clamp (s : State) (ch : Fin ACTIVE_SERVOS) (w : Nat)
    (hlo : 0 ≤ (w : Int) + (s.servos ch).trim)
    (hhi : (w : Int) + (s.servos ch).trim < 4294967296)
    (hmm : (s.servos ch).min ≤ (s.servos ch).max)
    (hfit : clamp ((w : Int) + (s.servos ch).trim) (s.servos ch).min (s.servos ch).max ≤ 32767) :
    ((pwm.get_servo (pwm.set_servo s ch.val w) ch.val).1 : Int) =
      2 * clamp ((w : Int) + (s.servos ch).trim) (s.servos ch).min (s.servos ch).max := by
  rw [get_servo_set_servo]
  unfold clamp at hfit ⊢
  split_ifs at hfit ⊢ <;> omega

/-- Witness of C1 (as amended): channel 0 with bounds 1300..1700 and trim -1,
commanded width 1500. -/
theorem set_servo_get_servo_clamp_witness :
    (0 ≤ ((1500 : Nat) : Int) + (trimmedState.servos 0).trim ∧
      ((1500 : Nat) : Int) + (trimmedState.servos 0).trim < 4294967296 ∧
      (trimmedState.servos 0).min ≤ (trimmedState.servos 0).max ∧
      clamp (((1500 : Nat) : Int) + (trimmedState.servos 0).trim)
        (trimmedState.servos 0).min (trimmedState.servos 0).max ≤ 32767) ∧
    ((pwm.get_servo (pwm.set_servo trimmedState (0 : Fin ACTIVE_SERVOS).val 1500)
        (0 : Fin ACTIVE_SERVOS).val).1 : Int) =
      2 * clamp (((1500 : Nat) : Int) + (trimmedState.servos 0).trim)
        (trimmedState.servos 0).min (trimmedState.servos 0).max :=
  ⟨by decide, set_servo_get_servo_clamp trimmedState 0 1500 (by decide) (by decide)
    (by decide) (by decide)⟩

/-- C1 fails as stated.  With bounds 1300..40000 and trim 0 the commanded width
40000 is stored as 80000 ticks and `get_servo`, which returns a `uint16_t`,
reads back 14464 instead of `2 * clamp 40000 1300 40000 = 80000`.  With bounds
1300..1700 and trim -1 the commanded width 0 gives the sum -1, which is
2^32 - 1 in 32-bit arithmetic: `get_servo` returns 3400, whereas
`2 * clamp (-1) 1300 1700` is 2600. -/
theorem set_servo_get_servo_not_clamp :
    ((wideState.servos 0).min = 1300 ∧ (wideState.servos 0).max = 40000 ∧
      (wideState.servos 0).trim = 0 ∧
      (pwm.get_servo (pwm.set_servo wideState 0 40000) 0).1 = 14464 ∧
      2 * clamp (((40000 : Nat) : Int) + (wideState.servos 0).trim)
        (wideState.servos 0).min (wideState.servos 0).max = 80000) ∧
    ((trimmedState.servos 0).min = 1300 ∧ (trimmedState.servos 0).max = 1700 ∧
      (trimmedState.servos 0).trim = -1 ∧
      (pwm.get_servo (pwm.set_servo trimmedState 0 0) 0).1 = 3400 ∧
      2 * clamp (((0 : Nat) : Int) + (trimmedState.servos 0).trim)
        (trimmedState.servos 0).min (trimmedState.servos 0).max = 2600) := by
  decide

/-- C2: for every valid channel whose bounds satisfy `min ≤ max ≤ 32767`, every
trim and every width `w` with `0 ≤ w + t < 2^32`, `get_servo` after `set_servo`
returns `2 * clamp (w + t) min max`; and right after `connect` (bounds
1300..1700, trim 0) commanding 5000 on channel 0 reads back 3400. -/
theorem set_servo_get_servo_bounded (s : State) (ch : Fin ACTIVE_SERVOS) (w : Nat)
    (hmm : (s.servos ch).min ≤ (s.servos ch).max)
    (hmax : (s.servos ch).max ≤ 32767)
    (hlo : 0 ≤ (w : Int) + (s.servos ch).trim)
    (hhi : (w : Int) + (s.servos ch).trim < 4294967296) :
    ((pwm.get_servo (pwm.set_servo s ch.val w) ch.val).1 : Int) =
      2 * clamp ((w : Int) + (s.servos ch).trim) (s.servos ch).min (s.servos ch).max ∧
    ∀ (s0 : State) (pin : Nat),
      ((pwm.connect s0 0 pin).servos 0).min = 1300 ∧
      ((pwm.connect s0 0 pin).servos 0).max = 1700 ∧
      ((pwm.connect s0 0 pin).servos 0).trim = 0 ∧
      (pwm.get_servo (pwm.set_servo (pwm.connect s0 0 pin) 0 5000) 0).1 = 3400 := by
  constructor
  · rw [get_servo_set_servo]
    unfold clamp
    split_ifs <;> omega
  · intro s0 pin
    have h := get_servo_set_servo (pwm.connect s0 0 pin) 0 5000
    simp only [Fin.val_zero] at h
    rw [h]
    simp [pwm.connect, setServo, MIN_PULSE, MAX_PULSE]

/-- Witness of C2: the start-up state with both channels connected, channel 1
commanded with 1234 microseconds. -/
theorem set_servo_get_servo_bounded_witness :
    ((connectedState.servos 1).min ≤ (connectedState.servos 1).max ∧
      (connectedState.servos 1).max ≤ 32767 ∧
      0 ≤ ((1234 : Nat) : Int) + (connectedState.servos 1).trim ∧
      ((1234 : Nat) : Int) + (connectedState.servos 1).trim < 4294967296) ∧
    (pwm.get_servo (pwm.set_servo connectedState 1 1234) 1).1 = 2600 :=
  ⟨by decide, by
    have h := (set_servo_get_servo_bounded connectedState 1 1234 (by decide) (by decide)
      (by decide) (by decide)).1
    have e : clamp (((1234 : Nat) : Int) + (connectedState.servos 1).trim)
        (connectedState.servos 1).min (connectedState.servos 1).max = 1300 := by decide
    rw [e] at h
    exact_mod_cast h⟩

/-- C3: for every channel id `which ≥ ACTIVE_SERVOS` and all other arguments,
`connect`, `set_limits`, `trim` and `set_servo` return the state unchanged
(channel table, `active`, `PORTB`, `TCNT1`, `OCR1A`, interrupt flag), and
`get_servo` returns 0 and the unchanged state. -/
theorem invalid_channel_no_effect (s : State) (which : Nat) (h : which ≥ ACTIVE_SERVOS)
    (pin mn mx us : Nat) (t : Int) :
    pwm.connect s which pin = s ∧
    pwm.set_limits s which mn mx = s ∧
    pwm.trim s which t = s ∧
    pwm.set_servo s which us = s ∧
    pwm.get_servo s which = (0, s) := by
  simp [pwm.connect, pwm.set_limits, pwm.trim, pwm.set_servo, pwm.get_servo, h]

/-- Witness of C3: channel id 2 on the connected start-up state. -/
theorem invalid_channel_no_effect_witness :
    2 ≥ ACTIVE_SERVOS ∧
    (pwm.connect connectedState 2 5 = connectedState ∧
      pwm.set_limits connectedState 2 1000 2000 = connectedState ∧
      pwm.trim connectedState 2 (-7) = connectedState ∧
      pwm.set_servo connectedState 2 1500 = connectedState ∧
      pwm.get_servo connectedState 2 = (0, connectedState)) :=
  ⟨by decide, invalid_channel_no_effect connectedState 2 (by decide) 5 1000 2000 1500 (-7)⟩

/-- C4: for every valid channel and every pair `(mn, mx)`, `set_limits` keeps
the stored `min` when `mn = 0` and stores `mn` otherwise, keeps the stored `max`
when `mx = 0` and stores `mx` otherwise, and changes nothing else: `pin`, `trim`
and `tcnt` of that channel, every other channel and all the other globals and
registers are unchanged.  With `(0, 0)` it is the identity. -/
theorem set_limits_effect (s : State) (ch : Fin ACTIVE_SERVOS) (mn mx : Nat) :
    ((pwm.set_limits s ch.val mn mx).servos ch).min
        = (if mn = 0 then (s.servos ch).min else mn) ∧
    ((pwm.set_limits s ch.val mn mx).servos ch).max
        = (if mx = 0 then (s.servos ch).max else mx) ∧
    ((pwm.set_limits s ch.val mn mx).servos ch).pin = (s.servos ch).pin ∧
    ((pwm.set_limits s ch.val mn mx).servos ch).trim = (s.servos ch).trim ∧
    ((pwm.set_limits s ch.val mn mx).servos ch).tcnt = (s.servos ch).tcnt ∧
    (∀ j : Fin ACTIVE_SERVOS, j ≠ ch →
        (pwm.set_limits s ch.val mn mx).servos j = s.servos j) ∧
    (pwm.set_limits s ch.val mn mx).active = s.active ∧
    (pwm.set_limits s ch.val mn mx).PORTB = s.PORTB ∧
    (pwm.set_limits s ch.val mn mx).TCNT1 = s.TCNT1 ∧
    (pwm.set_limits s ch.val mn mx).OCR1A = s.OCR1A ∧
    (pwm.set_limits s ch.val mn mx).SREG_I = s.SREG_I ∧
    pwm.set_limits s ch.val 0 0 = s := by
  have hz : pwm.set_limits s ch.val 0 0 = s := by
    simp [pwm.set_limits, not_ge_of_fin]
  refine ⟨?_, ?_, ?_, ?_, ?_, ?_, ?_, ?_, ?_, ?_, ?_, hz⟩ <;>
    by_cases h1 : mn = 0 <;> by_cases h2 : mx = 0 <;>
    simp +contextual [pwm.set_limits, setServo, not_ge_of_fin, h1, h2, Nat.pos_of_ne_zero]

/-! ## Port arithmetic -/

theorem testBit_BV (pin k : Nat) :
    (_BV pin).testBit k = (decide (k < 16) && decide (pin = k)) := by
  have h : (65536 : Nat) = 2 ^ 16 := by norm_num
  rw [_BV, Nat.one_shiftLeft, h, Nat.testBit_mod_two_pow, Nat.testBit_two_pow]

theorem BV_lt (pin : Nat) : _BV pin < 2 ^ 16 := by
  unfold _BV
  omega

/-- Bits of the port after `PORTB |= _BV(pin)`. -/
theorem testBit_portSet (p pin k : Nat) :
    (portSet p pin).testBit k = (decide (k < 8) && (p.testBit k || decide (pin = k))) := by
  have h : (256 : Nat) = 2 ^ 8 := by norm_num
  rw [portSet, h, Nat.testBit_mod_two_pow, Nat.testBit_or, testBit_BV]
  by_cases h8 : k < 8
  · have h16 : k < 16 := by omega
    simp [h8, h16]
  · simp [h8]

/-- Bits of the port after `PORTB &= ~_BV(pin)`. -/
theorem testBit_portClear (p pin k : Nat) :
    (portClear p pin).testBit k = (decide (k < 8) && (p.testBit k && !decide (pin = k))) := by
  have h : (256 : Nat) = 2 ^ 8 := by norm_num
  have e : 65535 - _BV pin = 2 ^ 16 - (_BV pin + 1) := by
    have := BV_lt pin
    omega
  rw [portClear, h, Nat.testBit_mod_two_pow, Nat.testBit_and, e,
    Nat.testBit_two_pow_sub_succ (BV_lt pin), testBit_BV]
  by_cases h8 : k < 8
  · have h16 : k < 16 := by omega
    simp [h8, h16]
  · simp [h8]

/-! ## The handler, case by case -/

/-- Invocation with `active = 0`: channel 0 is switched off, channel 1 is
switched on for `servos[1].tcnt` ticks. -/
theorem timer1ISR_of_active_zero (s : State) (h : s.active = 0) :
    timer1ISR s = some
      { s with
        active := 1
        PORTB := portSet (portClear s.PORTB (s.servos 0).pin) (s.servos 1).pin
        OCR1A := ((s.TCNT1 + (s.servos 1).tcnt) % 4294967296) % 65536 } := by
  simp [timer1ISR, servoAt, h, toInt8]

/-- Invocation with `active = 1`: channel 1 is switched off and the idle period
is scheduled. -/
theorem timer1ISR_of_active_one (s : State) (h : s.active = 1) :
    timer1ISR s = some
      { s with
        active := 2
        PORTB := portClear s.PORTB (s.servos 1).pin
        OCR1A := if (s.TCNT1 + UPDATE_WAIT) % 65536 < UPDATE_INTERVAL then UPDATE_INTERVAL
                 else (s.TCNT1 + UPDATE_WAIT) % 65536 } := by
  simp [timer1ISR, servoAt, h, toInt8]
  split_ifs <;> rfl

/-- Invocation with `active ≥ ACTIVE_SERVOS`: the counter is reset and channel 0
is switched on for `servos[0].tcnt` ticks. -/
theorem timer1ISR_of_active_ge (s : State) (h : (2 : Int) ≤ s.active) :
    timer1ISR s = some
      { s with
        active := 0
        TCNT1 := 0
        PORTB := portSet s.PORTB (s.servos 0).pin
        OCR1A := ((0 + (s.servos 0).tcnt) % 4294967296) % 65536 } := by
  have h' : ¬ s.active < 2 := not_lt.mpr h
  simp [timer1ISR, servoAt, h', toInt8]

/-- Invocation with a negative index: the table access `servos[active]` is
outside the table. -/
theorem timer1ISR_of_active_neg (s : State) (h : s.active < 0) : timer1ISR s = none := by
  have h1 : s.active < 2 := by omega
  have h2 : ¬ (0 ≤ s.active) := not_le.mpr h
  simp [timer1ISR, servoAt, h1, h2]

/-! ## One pass of the scheduler -/

/-- C5: from a pass-complete state (`active = ACTIVE_SERVOS`, all channel pins
low, the channels on distinct pins of the port) whose widths `p0`, `p1` satisfy
`p0 + p1 + 5 < 65536`, with the handler invoked each time the counter reaches
the scheduled compare value: the first invocation resets the counter, raises
pin 0 and schedules `p0`; the second, at tick `p0`, lowers pin 0, raises pin 1
and schedules `p0 + p1`; the third, at tick `p0 + p1`, lowers pin 1, raises
nothing and schedules `max 40000 (p0 + p1 + 5) ≥ 40000`.  For `p0 = 1500`,
`p1 = 1300` the three scheduled ticks are 1500, 2800 and 40000. -/
theorem pass_schedule (s : State)
    (hact : s.active = ACTIVE_SERVOS)
    (hlow : ∀ i, pinHigh s i = false)
    (hpins : (s.servos 0).pin ≠ (s.servos 1).pin)
    (hp0 : (s.servos 0).pin < 8) (hp1 : (s.servos 1).pin < 8)
    (hsum : (s.servos 0).tcnt + (s.servos 1).tcnt + UPDATE_WAIT < 65536) :
    ∃ s1 s2 s3 : State,
      timer1ISR s = some s1 ∧
      timer1ISR (compareMatch s1) = some s2 ∧
      timer1ISR (compareMatch s2) = some s3 ∧
      (s1.TCNT1 = 0 ∧ s1.active = 0 ∧ pinHigh s1 0 = true ∧ pinHigh s1 1 = false ∧
        s1.OCR1A = (s.servos 0).tcnt) ∧
      ((compareMatch s1).TCNT1 = (s.servos 0).tcnt ∧ s2.active = 1 ∧
        pinHigh s2 0 = false ∧ pinHigh s2 1 = true ∧
        s2.OCR1A = (s.servos 0).tcnt + (s.servos 1).tcnt) ∧
      ((compareMatch s2).TCNT1 = (s.servos 0).tcnt + (s.servos 1).tcnt ∧
        s3.active = ACTIVE_SERVOS ∧
        pinHigh s3 0 = false ∧ pinHigh s3 1 = false ∧
        s3.OCR1A = max UPDATE_INTERVAL ((s.servos 0).tcnt + (s.servos 1).tcnt + UPDATE_WAIT) ∧
        UPDATE_INTERVAL ≤ s3.OCR1A) ∧
      (s1.servos = s.servos ∧ s2.servos = s.servos ∧ s3.servos = s.servos) ∧
      ((s.servos 0).tcnt = 1500 → (s.servos 1).tcnt = 1300 →
        s1.OCR1A = 1500 ∧ s2.OCR1A = 2800 ∧ s3.OCR1A = 40000) := by
  have h2 : (2 : Int) ≤ s.active := by rw [hact]; norm_num
  have l0 : s.PORTB.testBit (s.servos 0).pin = false := hlow 0
  have l1 : s.PORTB.testBit (s.servos 1).pin = false := hlow 1
  have hne : ¬ (s.servos 1).pin = (s.servos 0).pin := fun e => hpins e.symm
  refine ⟨_, _, _, timer1ISR_of_active_ge s h2, timer1ISR_of_active_zero _ rfl,
    timer1ISR_of_active_one _ rfl, ?_, ?_, ?_, ?_, ?_⟩
  · refine ⟨rfl, rfl, ?_, ?_, ?_⟩
    · simp [pinHigh, testBit_portSet, hp0]
    · simp [pinHigh, testBit_portSet, hp1, l1, hpins]
    · show (0 + (s.servos 0).tcnt) % 4294967296 % 65536 = (s.servos 0).tcnt
      omega
  · refine ⟨?_, rfl, ?_, ?_, ?_⟩
    · show (0 + (s.servos 0).tcnt) % 4294967296 % 65536 = (s.servos 0).tcnt
      omega
    · simp [pinHigh, compareMatch, testBit_portSet, testBit_portClear, hp0, hne]
    · simp [pinHigh, compareMatch, testBit_portSet, testBit_portClear, hp1]
    · show ((0 + (s.servos 0).tcnt) % 4294967296 % 65536 + (s.servos 1).tcnt) % 4294967296 % 65536
        = (s.servos 0).tcnt + (s.servos 1).tcnt
      omega
  · refine ⟨?_, rfl, ?_, ?_, ?_, ?_⟩
    · show ((0 + (s.servos 0).tcnt) % 4294967296 % 65536 + (s.servos 1).tcnt) % 4294967296 % 65536
        = (s.servos 0).tcnt + (s.servos 1).tcnt
      omega
    · simp [pinHigh, compareMatch, testBit_portSet, testBit_portClear, hp0, hne]
    · simp [pinHigh, compareMatch, testBit_portSet, testBit_portClear, hp1]
    · simp only [compareMatch, UPDATE_WAIT, UPDATE_INTERVAL] at hsum ⊢
      split_ifs <;> omega
    · simp only [compareMatch, UPDATE_WAIT, UPDATE_INTERVAL] at hsum ⊢
      split_ifs <;> omega
  · exact ⟨rfl, rfl, rfl⟩
  · intro e0 e1
    simp only [compareMatch, UPDATE_WAIT, UPDATE_INTERVAL, e0, e1]
    decide

/-- Witness of C5: the pass-complete state with widths 1500 and 1300 ticks on
pins 1 and 2. -/
theorem pass_schedule_witness :
    (passCompleteState.active = ACTIVE_SERVOS ∧
      (∀ i, pinHigh passCompleteState i = false) ∧
      (passCompleteState.servos 0).pin ≠ (passCompleteState.servos 1).pin ∧
      (passCompleteState.servos 0).pin < 8 ∧ (passCompleteState.servos 1).pin < 8 ∧
      (passCompleteState.servos 0).tcnt + (passCompleteState.servos 1).tcnt + UPDATE_WAIT
        < 65536) ∧
    ∃ s1 s2 s3 : State,
      timer1ISR passCompleteState = some s1 ∧
      timer1ISR (compareMatch s1) = some s2 ∧
      timer1ISR (compareMatch s2) = some s3 ∧
      s1.OCR1A = 1500 ∧ s2.OCR1A = 2800 ∧ s3.OCR1A = 40000 := by
  refine ⟨by decide, ?_⟩
  obtain ⟨s1, s2, s3, h1, h2, h3, _, _, _, _, h⟩ :=
    pass_schedule passCompleteState (by decide) (by decide) (by decide) (by decide)
      (by decide) (by decide)
  exact ⟨s1, s2, s3, h1, h2, h3, h (by decide) (by decide)⟩

/-! ## Executions and invariants -/

/-- An invariant that every admitted event establishes again, without failing,
holds after every finite execution made of admitted events. -/
theorem run_invariant (P : State → Prop) (Q : Op → Prop)
    (hstep : ∀ op s, Q op → P s → ∃ s', op.apply s = some s' ∧ P s') :
    ∀ (ops : List Op) (s : State), (∀ op ∈ ops, Q op) → P s →
      ∃ s', run ops s = some s' ∧ P s' := by
  intro ops
  induction ops with
  | nil =>
    intro s _ hP
    exact ⟨s, rfl, hP⟩
  | cons op ops ih =>
    intro s hQ hP
    obtain ⟨s1, h1, hP1⟩ := hstep op s (hQ op (List.mem_cons_self _ _)) hP
    obtain ⟨s2, h2, hP2⟩ := ih s1 (fun o ho => hQ o (List.mem_cons_of_mem _ ho)) hP1
    exact ⟨s2, by simp [run, h1, h2], hP2⟩

/-! ### Frame facts of the configuration API -/

theorem connect_frame (s : State) (which pin : Nat) :
    (pwm.connect s which pin).active = s.active ∧
    (pwm.connect s which pin).PORTB = s.PORTB ∧
    (pwm.connect s which pin).TCNT1 = s.TCNT1 ∧
    (pwm.connect s which pin).OCR1A = s.OCR1A ∧
    (pwm.connect s which pin).SREG_I = s.SREG_I ∧
    (∀ j : Fin ACTIVE_SERVOS, j.val ≠ which →
      (pwm.connect s which pin).servos j = s.servos j) ∧
    (∀ j : Fin ACTIVE_SERVOS,
      ((pwm.connect s which pin).servos j).tcnt = (s.servos j).tcnt) := by
  by_cases h : which ≥ ACTIVE_SERVOS
  · simp [pwm.connect, h]
  · refine ⟨?_, ?_, ?_, ?_, ?_, ?_, ?_⟩ <;> simp [pwm.connect, setServo, h]
    · intro j hj hj'
      exact absurd (congrArg Fin.val hj') hj
    · intro j
      split_ifs with e
      · rw [e]
      · rfl

theorem set_limits_frame (s : State) (which mn mx : Nat) :
    (pwm.set_limits s which mn mx).active = s.active ∧
    (pwm.set_limits s which mn mx).PORTB = s.PORTB ∧
    (pwm.set_limits s which mn mx).TCNT1 = s.TCNT1 ∧
    (pwm.set_limits s which mn mx).OCR1A = s.OCR1A ∧
    (pwm.set_limits s which mn mx).SREG_I = s.SREG_I ∧
    (∀ j : Fin ACTIVE_SERVOS, j.val ≠ which →
      (pwm.set_limits s which mn mx).servos j = s.servos j) ∧
    (∀ j : Fin ACTIVE_SERVOS,
      ((pwm.set_limits s which mn mx).servos j).pin = (s.servos j).pin ∧
      ((pwm.set_limits s which mn mx).servos j).tcnt = (s.servos j).tcnt ∧
      ((pwm.set_limits s which mn mx).servos j).trim = (s.servos j).trim) := by
  by_cases h : which ≥ ACTIVE_SERVOS
  · simp [pwm.set_limits, h]
  · have hj : ∀ j : Fin ACTIVE_SERVOS, j.val ≠ which →
        ¬ j = (⟨which, Nat.lt_of_not_ge h⟩ : Fin ACTIVE_SERVOS) :=
      fun j hj e => hj (congrArg Fin.val e)
    by_cases h1 : mn > 0 <;> by_cases h2 : mx > 0 <;>
      refine ⟨?_, ?_, ?_, ?_, ?_, ?_, ?_⟩ <;>
      simp +contextual [pwm.set_limits, setServo, h, h1, h2, hj] <;>
      (intro j; split_ifs with e <;> simp [e])

theorem trim_frame (s : State) (which : Nat) (t : Int) :
    (pwm.trim s which t).active = s.active ∧
    (pwm.trim s which t).PORTB = s.PORTB ∧
    (pwm.trim s which t).TCNT1 = s.TCNT1 ∧
    (pwm.trim s which t).OCR1A = s.OCR1A ∧
    (pwm.trim s which t).SREG_I = s.SREG_I ∧
    (∀ j : Fin ACTIVE_SERVOS, j.val ≠ which → (pwm.trim s which t).servos j = s.servos j) ∧
    (∀ j : Fin ACTIVE_SERVOS,
      ((pwm.trim s which t).servos j).pin = (s.servos j).pin ∧
      ((pwm.trim s which t).servos j).tcnt = (s.servos j).tcnt ∧
      ((pwm.trim s which t).servos j).min = (s.servos j).min ∧
      ((pwm.trim s which t).servos j).max = (s.servos j).max) := by
  by_cases h : which ≥ ACTIVE_SERVOS
  · simp [pwm.trim, h]
  · have hj : ∀ j : Fin ACTIVE_SERVOS, j.val ≠ which →
        ¬ j = (⟨which, Nat.lt_of_not_ge h⟩ : Fin ACTIVE_SERVOS) :=
      fun j hj e => hj (congrArg Fin.val e)
    refine ⟨?_, ?_, ?_, ?_, ?_, ?_, ?_⟩ <;> simp +contextual [pwm.trim, setServo, h, hj]
    intro j
    split_ifs with e <;> simp [e]

theorem set_servo_frame (s : State) (which us : Nat) :
    (pwm.set_servo s which us).active = s.active ∧
    (pwm.set_servo s which us).PORTB = s.PORTB ∧
    (pwm.set_servo s which us).TCNT1 = s.TCNT1 ∧
    (pwm.set_servo s which us).OCR1A = s.OCR1A ∧
    (∀ j : Fin ACTIVE_SERVOS, j.val ≠ which →
      (pwm.set_servo s which us).servos j = s.servos j) ∧
    (∀ j : Fin ACTIVE_SERVOS,
      ((pwm.set_servo s which us).servos j).pin = (s.servos j).pin ∧
      ((pwm.set_servo s which us).servos j).min = (s.servos j).min ∧
      ((pwm.set_servo s which us).servos j).max = (s.servos j).max ∧
      ((pwm.set_servo s which us).servos j).trim = (s.servos j).trim) := by
  by_cases h : which ≥ ACTIVE_SERVOS
  · simp [pwm.set_servo, h]
  · have hj : ∀ j : Fin ACTIVE_SERVOS, j.val ≠ which →
        ¬ j = (⟨which, Nat.lt_of_not_ge h⟩ : Fin ACTIVE_SERVOS) :=
      fun j hj e => hj (congrArg Fin.val e)
    refine ⟨?_, ?_, ?_, ?_, ?_, ?_⟩ <;> simp +contextual [pwm.set_servo, setServo, h, hj]
    intro j
    split_ifs with e <;> simp [e]

theorem get_servo_state (s : State) (which : Nat) : (pwm.get_servo s which).2 = s := by
  unfold pwm.get_servo
  split_ifs <;> rfl

/-! ### Mutual exclusion -/

theorem exclusive_timer1ISR (s : State) (h : exclusive s) :
    ∃ s', timer1ISR s = some s' ∧ exclusive s' := by
  obtain ⟨⟨ha0, ha2⟩, hpins, h0, h1⟩ := h
  have hne : ¬ (s.servos 1).pin = (s.servos 0).pin := fun e => hpins e.symm
  have hcases : s.active = 0 ∨ s.active = 1 ∨ s.active = 2 := by omega
  rcases hcases with e | e | e
  · refine ⟨_, timer1ISR_of_active_zero s e, ?_⟩
    simp [exclusive, pinHigh, testBit_portSet, testBit_portClear, hpins, hne]
  · refine ⟨_, timer1ISR_of_active_one s e, ?_⟩
    have l0 : s.PORTB.testBit (s.servos 0).pin = false := h0 (by omega)
    simp [exclusive, pinHigh, testBit_portClear, hpins, l0]
  · refine ⟨_, timer1ISR_of_active_ge s (by omega), ?_⟩
    have l1 : s.PORTB.testBit (s.servos 1).pin = false := h1 (by omega)
    simp [exclusive, pinHigh, testBit_portSet, hpins, l1]

theorem exclusive_step (op : Op) (s : State) (hop : op.keepsPins = true) (h : exclusive s) :
    ∃ s', op.apply s = some s' ∧ exclusive s' := by
  cases op with
  | connect which pin => simp [Op.keepsPins] at hop
  | set_limits which mn mx =>
    obtain ⟨fa, fp, _, _, _, _, fs⟩ := set_limits_frame s which mn mx
    refine ⟨_, rfl, ?_⟩
    simpa [exclusive, pinHigh, fa, fp, fs] using h
  | trim which t =>
    obtain ⟨fa, fp, _, _, _, _, fs⟩ := trim_frame s which t
    refine ⟨_, rfl, ?_⟩
    simpa [exclusive, pinHigh, fa, fp, fs] using h
  | set_servo which us =>
    obtain ⟨fa, fp, _, _, _, fs⟩ := set_servo_frame s which us
    refine ⟨_, rfl, ?_⟩
    simpa [exclusive, pinHigh, fa, fp, fs] using h
  | get_servo which =>
    refine ⟨_, rfl, ?_⟩
    rw [get_servo_state]
    exact h
  | timer1ISR => exact exclusive_timer1ISR s h
  | count c =>
    refine ⟨_, rfl, ?_⟩
    simpa [exclusive, pinHigh, count] using h

/-- C6: from any initial state with `active = 0`, all channel pins low and the
two channels on distinct pins, every finite interleaving of `set_servo` calls
and handler invocations (more generally of any events other than `connect`)
runs without failure and ends in a state where at most one channel pin is high,
only the channel denoted by `active` may have its pin high, and every channel
pin is low when `active = ACTIVE_SERVOS`. -/
theorem mutual_exclusion (s0 : State)
    (hact : s0.active = 0)
    (hlow : ∀ i, pinHigh s0 i = false)
    (hpins : (s0.servos 0).pin ≠ (s0.servos 1).pin)
    (ops : List Op) (hops : ∀ op ∈ ops, op.keepsPins = true) :
    ∃ s, run ops s0 = some s ∧
      (∀ i j, pinHigh s i = true → pinHigh s j = true → i = j) ∧
      (∀ i : Fin ACTIVE_SERVOS, (i.val : Int) ≠ s.active → pinHigh s i = false) ∧
      (s.active = ACTIVE_SERVOS → ∀ i, pinHigh s i = false) := by
  have hinit : exclusive s0 := ⟨by omega, hpins, fun _ => hlow 0, fun _ => hlow 1⟩
  obtain ⟨s, hrun, ⟨ha0, ha2⟩, _, h0, h1⟩ :=
    run_invariant exclusive (fun op => op.keepsPins = true) exclusive_step ops s0 hops hinit
  refine ⟨s, hrun, ?_, ?_, ?_⟩
  · intro i j hi hj
    by_cases e0 : s.active = 0
    · have l1 := h1 (by omega)
      fin_cases i <;> fin_cases j <;> simp_all
    · have l0 := h0 e0
      fin_cases i <;> fin_cases j <;> simp_all
  · intro i hi
    fin_cases i
    · exact h0 (fun e => hi (by simp [e]))
    · exact h1 (fun e => hi (by simp [e]))
  · intro e i
    have e2 : s.active = 2 := by simpa using e
    fin_cases i
    · exact h0 (by omega)
    · exact h1 (by omega)

/-- Witness of C6: the connected start-up state, two commands interleaved with
four handler invocations. -/
theorem mutual_exclusion_witness :
    (connectedState.active = 0 ∧ (∀ i, pinHigh connectedState i = false) ∧
      (connectedState.servos 0).pin ≠ (connectedState.servos 1).pin ∧
      ∀ op ∈ [Op.set_servo 0 1500, Op.timer1ISR, Op.timer1ISR, Op.set_servo 1 1600,
          Op.timer1ISR, Op.timer1ISR], op.keepsPins = true) ∧
    ∃ s, run [Op.set_servo 0 1500, Op.timer1ISR, Op.timer1ISR, Op.set_servo 1 1600,
          Op.timer1ISR, Op.timer1ISR] connectedState = some s ∧
      (∀ i j, pinHigh s i = true → pinHigh s j = true → i = j) ∧
      (∀ i : Fin ACTIVE_SERVOS, (i.val : Int) ≠ s.active → pinHigh s i = false) ∧
      (s.active = ACTIVE_SERVOS → ∀ i, pinHigh s i = false) :=
  ⟨by decide, mutual_exclusion connectedState (by decide) (by decide) (by decide) _ (by decide)⟩

/-! ### The idle period -/

/-- The handler completes a pass exactly when it is entered with `active = 1`. -/
theorem active_of_pass_complete (s s' : State) (h : timer1ISR s = some s')
    (hdone : s'.active = 2) : s.active = 1 := by
  have hcases : s.active < 0 ∨ s.active = 0 ∨ s.active = 1 ∨ 2 ≤ s.active := by omega
  rcases hcases with e | e | e | e
  · rw [timer1ISR_of_active_neg s e] at h
    exact absurd h (by simp)
  · rw [timer1ISR_of_active_zero s e] at h
    injection h with h
    subst h
    simp at hdone
  · exact e
  · rw [timer1ISR_of_active_ge s e] at h
    injection h with h
    subst h
    simp at hdone

/-- C7 (as amended): when an invocation completes a pass (the incremented index
equals `ACTIVE_SERVOS`) with the 16-bit counter at `c`, the scheduled compare
value is `max 40000 (c + 5)` whenever `c + 5` fits 16 bits (`c ≤ 65530`), and
then it is at least `c + 5`; for `c ≥ 65531` the 16-bit sum wraps and 40000 is
scheduled.  In every case the scheduled value is at least 40000. -/
theorem idle_schedule (s s' : State) (h : timer1ISR s = some s')
    (hdone : s'.active = ACTIVE_SERVOS) (hc : s.TCNT1 < 65536) :
    (s.TCNT1 + UPDATE_WAIT < 65536 →
      s'.OCR1A = max UPDATE_INTERVAL (s.TCNT1 + UPDATE_WAIT) ∧
      s.TCNT1 + UPDATE_WAIT ≤ s'.OCR1A) ∧
    (65536 ≤ s.TCNT1 + UPDATE_WAIT → s'.OCR1A = UPDATE_INTERVAL) ∧
    UPDATE_INTERVAL ≤ s'.OCR1A := by
  have e : s.active = 1 := active_of_pass_complete s s' h (by simpa using hdone)
  rw [timer1ISR_of_active_one s e] at h
  injection h with h
  subst h
  simp only [UPDATE_WAIT, UPDATE_INTERVAL] at hc ⊢
  refine ⟨?_, ?_, ?_⟩
  · intro hfit
    split_ifs <;> omega
  · intro hwrap
    split_ifs <;> omega
  · split_ifs <;> omega

/-- Witness of C7 (as amended): channel 1's pulse ends at tick 2800. -/
theorem idle_schedule_witness :
    ∃ s', (timer1ISR endOfPulseState = some s' ∧ s'.active = ACTIVE_SERVOS ∧
        endOfPulseState.TCNT1 < 65536) ∧
      (endOfPulseState.TCNT1 + UPDATE_WAIT < 65536 →
        s'.OCR1A = max UPDATE_INTERVAL (endOfPulseState.TCNT1 + UPDATE_WAIT) ∧
        endOfPulseState.TCNT1 + UPDATE_WAIT ≤ s'.OCR1A) ∧
      (65536 ≤ endOfPulseState.TCNT1 + UPDATE_WAIT → s'.OCR1A = UPDATE_INTERVAL) ∧
      UPDATE_INTERVAL ≤ s'.OCR1A :=
  ⟨_, ⟨timer1ISR_of_active_one endOfPulseState rfl, rfl, by decide⟩,
    idle_schedule endOfPulseState _ (timer1ISR_of_active_one endOfPulseState rfl) rfl
      (by decide)⟩

/-- C7 fails as stated: with pulses of 40000 and 25534 ticks the second pulse
ends at tick 65534 (`OCR1A = 65534` was scheduled, `active = 1`); the invocation
at that tick completes the pass and schedules 40000, whereas
`max 40000 (65534 + 5)` is 65539 (which no 16-bit register holds). -/
theorem idle_schedule_wraps :
    (run overrunRun (initial 0 0 0 true)).map (fun s => (s.active, s.OCR1A, s.TCNT1))
      = some (1, 65534, 65534) ∧
    ((run overrunRun (initial 0 0 0 true)).bind timer1ISR).map
        (fun s' => (s'.active, s'.OCR1A)) = some (2, 40000) ∧
    max UPDATE_INTERVAL (65534 + UPDATE_WAIT) = 65539 := by
  refine ⟨?_, ?_, ?_⟩
  · decide
  · decide
  · decide

/-! ### The scheduler index -/

theorem active_bounds_timer1ISR (s : State) (h : 0 ≤ s.active ∧ s.active ≤ 2) :
    ∃ s', timer1ISR s = some s' ∧ (0 ≤ s'.active ∧ s'.active ≤ 2) ∧
      s'.active = (if s.active < 2 then s.active else -1) + 1 := by
  have hcases : s.active = 0 ∨ s.active = 1 ∨ s.active = 2 := by omega
  rcases hcases with e | e | e
  · exact ⟨_, timer1ISR_of_active_zero s e, by simp, by simp [e]⟩
  · exact ⟨_, timer1ISR_of_active_one s e, by simp, by simp [e]⟩
  · exact ⟨_, timer1ISR_of_active_ge s (by omega), by simp, by simp [e]⟩

theorem active_bounds_step (op : Op) (s : State) (_hop : True)
    (h : 0 ≤ s.active ∧ s.active ≤ 2) :
    ∃ s', op.apply s = some s' ∧ (0 ≤ s'.active ∧ s'.active ≤ 2) := by
  cases op with
  | connect which pin =>
    exact ⟨_, rfl, by rw [(connect_frame s which pin).1]; exact h⟩
  | set_limits which mn mx =>
    exact ⟨_, rfl, by rw [(set_limits_frame s which mn mx).1]; exact h⟩
  | trim which t =>
    exact ⟨_, rfl, by rw [(trim_frame s which t).1]; exact h⟩
  | set_servo which us =>
    exact ⟨_, rfl, by rw [(set_servo_frame s which us).1]; exact h⟩
  | get_servo which =>
    exact ⟨_, rfl, by rw [get_servo_state]; exact h⟩
  | timer1ISR =>
    obtain ⟨s', h1, h2, _⟩ := active_bounds_timer1ISR s h
    exact ⟨s', h1, h2⟩
  | count c => exact ⟨_, rfl, h⟩

/-- C8: from any initial state with `active = 0`, every finite interleaving of
configuration-API calls, handler invocations and counter changes runs without
failure and ends in a state with `0 ≤ active ≤ ACTIVE_SERVOS`; from such a state
the next invocation of the handler succeeds, both table accesses it can make
(`servos[active]` before and after the increment) are inside the table, the
incremented index is the exact successor of `active` (or of the sentinel -1),
at most 2, so the 8-bit index does not wrap, and the index is in bounds again
afterwards. -/
theorem active_in_bounds (s0 : State) (hact : s0.active = 0) (ops : List Op) :
    ∃ s, run ops s0 = some s ∧
      (0 ≤ s.active ∧ s.active ≤ ACTIVE_SERVOS) ∧
      ∃ s', timer1ISR s = some s' ∧
        (s.active < ACTIVE_SERVOS → (servoAt s s.active).isSome = true) ∧
        (s'.active < ACTIVE_SERVOS → (servoAt s' s'.active).isSome = true) ∧
        s'.active = (if s.active < ACTIVE_SERVOS then s.active else -1) + 1 ∧
        (if s.active < ACTIVE_SERVOS then s.active else -1) + 1 ≤ 127 ∧
        (0 ≤ s'.active ∧ s'.active ≤ ACTIVE_SERVOS) := by
  obtain ⟨s, hrun, hs⟩ :=
    run_invariant (fun s => 0 ≤ s.active ∧ s.active ≤ 2) (fun _ => True) active_bounds_step
      ops s0 (fun _ _ => trivial) (by simp [hact])
  obtain ⟨s', h1, h2, h3⟩ := active_bounds_timer1ISR s hs
  have c2 : ((ACTIVE_SERVOS : Nat) : Int) = 2 := rfl
  refine ⟨s, hrun, by rw [c2]; exact hs, s', h1, ?_, ?_, ?_, ?_, by rw [c2]; exact h2⟩
  · intro _
    simp [servoAt, hs.1]
    omega
  · intro hlt
    rw [c2] at hlt
    simp [servoAt, h2.1, hlt]
  · rw [c2]
    exact h3
  · rw [c2]
    split_ifs <;> omega

/-- Witness of C8: the statically initialised state and a mixed execution. -/
theorem active_in_bounds_witness :
    (initial 0 0 0 true).active = 0 ∧
    ∃ s, run [Op.connect 0 1, Op.timer1ISR, Op.set_limits 1 1000 2000, Op.timer1ISR,
          Op.count 40000, Op.timer1ISR, Op.set_servo 1 900, Op.trim 0 3, Op.get_servo 0,
          Op.timer1ISR] (initial 0 0 0 true) = some s ∧
      (0 ≤ s.active ∧ s.active ≤ ACTIVE_SERVOS) ∧
      ∃ s', timer1ISR s = some s' ∧
        (s.active < ACTIVE_SERVOS → (servoAt s s.active).isSome = true) ∧
        (s'.active < ACTIVE_SERVOS → (servoAt s' s'.active).isSome = true) ∧
        s'.active = (if s.active < ACTIVE_SERVOS then s.active else -1) + 1 ∧
        (if s.active < ACTIVE_SERVOS then s.active else -1) + 1 ≤ 127 ∧
        (0 ≤ s'.active ∧ s'.active ≤ ACTIVE_SERVOS) :=
  ⟨rfl, active_in_bounds (initial 0 0 0 true) rfl _⟩

/-! ### The stored width and the channel's bounds -/

/-- The handler never writes the channel table. -/
theorem timer1ISR_servos (s s' : State) (h : timer1ISR s = some s') :
    s'.servos = s.servos := by
  have hcases : s.active < 0 ∨ s.active = 0 ∨ s.active = 1 ∨ 2 ≤ s.active := by omega
  rcases hcases with e | e | e | e
  · rw [timer1ISR_of_active_neg s e] at h
    exact absurd h (by simp)
  · rw [timer1ISR_of_active_zero s e] at h
    injection h with h
    subst h
    rfl
  · rw [timer1ISR_of_active_one s e] at h
    injection h with h
    subst h
    rfl
  · rw [timer1ISR_of_active_ge s e] at h
    injection h with h
    subst h
    rfl

/-- The width stored by `set_servo` on a valid channel. -/
theorem set_servo_tcnt (s : State) (i : Fin ACTIVE_SERVOS) (us : Nat) :
    ((pwm.set_servo s i.val us).servos i).tcnt =
      (if (((us : Int) + (s.servos i).trim) % 4294967296).toNat < (s.servos i).min
          then (s.servos i).min
        else if (((us : Int) + (s.servos i).trim) % 4294967296).toNat > (s.servos i).max
          then (s.servos i).max
        else (((us : Int) + (s.servos i).trim) % 4294967296).toNat) * 2 % 4294967296 := by
  simp [pwm.set_servo, setServo, not_ge_of_fin]

/-- A command establishes the range on the addressed channel when its bounds are
ordered 16-bit values. -/
theorem set_servo_inRange (s : State) (ch : Fin ACTIVE_SERVOS) (w : Nat)
    (hmm : (s.servos ch).min ≤ (s.servos ch).max) (hmax : (s.servos ch).max ≤ 65535) :
    inRange (pwm.set_servo s ch.val w) ch := by
  obtain ⟨_, _, _, _, _, fs⟩ := set_servo_frame s ch.val w
  unfold inRange
  rw [set_servo_tcnt, (fs ch).2.1, (fs ch).2.2.1]
  split_ifs <;> omega

theorem rangeKept_step (ch : Fin ACTIVE_SERVOS) (op : Op) (s : State)
    (hop : op.reconfigures ch.val = false) (h : rangeKept ch s) :
    ∃ s', op.apply s = some s' ∧ rangeKept ch s' := by
  obtain ⟨hact, hmm, hmax, hin⟩ := h
  cases op with
  | connect which pin =>
    have hne : ch.val ≠ which := fun e => by simp [Op.reconfigures, e] at hop
    obtain ⟨fa, _, _, _, _, fs, _⟩ := connect_frame s which pin
    refine ⟨_, rfl, ?_⟩
    simp only [rangeKept, inRange, fa, fs ch hne]
    exact ⟨hact, hmm, hmax, hin⟩
  | set_limits which mn mx =>
    have hne : ch.val ≠ which := fun e => by simp [Op.reconfigures, e] at hop
    obtain ⟨fa, _, _, _, _, fs, _⟩ := set_limits_frame s which mn mx
    refine ⟨_, rfl, ?_⟩
    simp only [rangeKept, inRange, fa, fs ch hne]
    exact ⟨hact, hmm, hmax, hin⟩
  | trim which t =>
    obtain ⟨fa, _, _, _, _, _, fs⟩ := trim_frame s which t
    refine ⟨_, rfl, ?_⟩
    simp only [rangeKept, inRange, fa, (fs ch).2.1, (fs ch).2.2.1, (fs ch).2.2.2]
    exact ⟨hact, hmm, hmax, hin⟩
  | set_servo which us =>
    obtain ⟨fa, _, _, _, fo, fs⟩ := set_servo_frame s which us
    refine ⟨_, rfl, ?_⟩
    by_cases e : ch.val = which
    · subst e
      have hr := set_servo_inRange s ch us hmm hmax
      refine ⟨by rw [fa]; exact hact, ?_, ?_, hr⟩
      · rw [(fs ch).2.1, (fs ch).2.2.1]
        exact hmm
      · rw [(fs ch).2.2.1]
        exact hmax
    · simp only [rangeKept, inRange, fa, fo ch e]
      exact ⟨hact, hmm, hmax, hin⟩
  | get_servo which =>
    refine ⟨_, rfl, ?_⟩
    rw [get_servo_state]
    exact ⟨hact, hmm, hmax, hin⟩
  | timer1ISR =>
    obtain ⟨s', h1, h2, _⟩ := active_bounds_timer1ISR s hact
    have hs := timer1ISR_servos s s' h1
    refine ⟨s', h1, ?_⟩
    simp only [rangeKept, inRange, hs]
    exact ⟨h2, hmm, hmax, hin⟩
  | count c => exact ⟨_, rfl, hact, hmm, hmax, hin⟩

/-- C9 (as amended): on a channel whose stored bounds are ordered 16-bit values
(`min ≤ max ≤ 65535`), `set_servo` leaves `2 * min ≤ tcnt ≤ 2 * max`, and this
still holds after any further finite execution of `set_servo`, `trim`,
`get_servo` calls, handler invocations, counter changes and `connect` /
`set_limits` calls addressed to other channels; the execution never fails when
it starts with `0 ≤ active ≤ ACTIVE_SERVOS`. -/
theorem pulse_in_range (s : State) (ch : Fin ACTIVE_SERVOS) (w : Nat)
    (hact : 0 ≤ s.active ∧ s.active ≤ ACTIVE_SERVOS)
    (hmm : (s.servos ch).min ≤ (s.servos ch).max) (hmax : (s.servos ch).max ≤ 65535)
    (ops : List Op) (hops : ∀ op ∈ ops, op.reconfigures ch.val = false) :
    inRange (pwm.set_servo s ch.val w) ch ∧
    ∃ s', run ops (pwm.set_servo s ch.val w) = some s' ∧ inRange s' ch := by
  have hr := set_servo_inRange s ch w hmm hmax
  obtain ⟨fa, _, _, _, _, fs⟩ := set_servo_frame s ch.val w
  have h0 : rangeKept ch (pwm.set_servo s ch.val w) := by
    refine ⟨by rw [fa]; exact hact, ?_, ?_, hr⟩
    · rw [(fs ch).2.1, (fs ch).2.2.1]
      exact hmm
    · rw [(fs ch).2.2.1]
      exact hmax
  obtain ⟨s', hrun, _, _, _, hin⟩ :=
    run_invariant (rangeKept ch) (fun op => op.reconfigures ch.val = false)
      (rangeKept_step ch) ops _ hops h0
  exact ⟨hr, s', hrun, hin⟩

/-- Witness of C9 (as amended): channel 0 of the connected start-up state. -/
theorem pulse_in_range_witness :
    ((0 ≤ connectedState.active ∧ connectedState.active ≤ ACTIVE_SERVOS) ∧
      (connectedState.servos 0).min ≤ (connectedState.servos 0).max ∧
      (connectedState.servos 0).max ≤ 65535 ∧
      ∀ op ∈ [Op.timer1ISR, Op.set_limits 1 100 200, Op.trim 0 25, Op.timer1ISR,
          Op.set_servo 0 1400, Op.connect 1 5, Op.timer1ISR],
        op.reconfigures (0 : Fin ACTIVE_SERVOS).val = false) ∧
    inRange (pwm.set_servo connectedState (0 : Fin ACTIVE_SERVOS).val 2000) 0 ∧
    ∃ s', run [Op.timer1ISR, Op.set_limits 1 100 200, Op.trim 0 25, Op.timer1ISR,
          Op.set_servo 0 1400, Op.connect 1 5, Op.timer1ISR]
        (pwm.set_servo connectedState (0 : Fin ACTIVE_SERVOS).val 2000) = some s' ∧
      inRange s' 0 :=
  ⟨by decide, pulse_in_range connectedState 0 2000 (by decide) (by decide) (by decide) _
    (by decide)⟩

/-- C9 fails as stated: the statically initialised table holds `tcnt = 1500`
with `min = max = 0`; and after both channels were connected and commanded,
raising channel 0's lower bound to 1600 leaves `tcnt = 3000 < 2 * 1600`, the
value the handler then uses (`OCR1A = 3000`) when it raises channel 0's pin. -/
theorem pulse_out_of_range :
    ¬ inRange (initial 0 0 0 true) 0 ∧
    (run raisedBoundRun (initial 0 0 0 true)).map
        (fun s => ((s.servos 0).min, (s.servos 0).tcnt, (s.servos 0).max))
      = some (1600, 3000, 1700) ∧
    (run raisedBoundRun (initial 0 0 0 true)).map
        (fun s => (s.active, s.OCR1A, pinHigh s 0, decide (inRange s 0)))
      = some (0, 3000, true, false) := by
  refine ⟨?_, ?_, ?_⟩
  · decide
  · decide
  · decide

/-! ### Commands and the pulse in progress -/

/-- An invocation that does not start the addressed channel's pulse commutes
with `set_servo`. -/
theorem timer1ISR_set_servo_comm (s t : State) (which us : Nat)
    (ht : timer1ISR s = some t) (hne : t.active ≠ (which : Int)) :
    timer1ISR (pwm.set_servo s which us) = some (pwm.set_servo t which us) := by
  by_cases hw : which ≥ ACTIVE_SERVOS
  · simp [pwm.set_servo, hw, ht]
  · have hw2 : which < 2 := Nat.lt_of_not_ge hw
    have hcases : s.active < 0 ∨ s.active = 0 ∨ s.active = 1 ∨ 2 ≤ s.active := by omega
    have fa := (set_servo_frame s which us).1
    rcases hcases with e | e | e | e
    · rw [timer1ISR_of_active_neg s e] at ht
      exact absurd ht (by simp)
    · rw [timer1ISR_of_active_zero s e] at ht
      injection ht with ht
      subst ht
      rw [timer1ISR_of_active_zero _ (by rw [fa]; exact e)]
      have h1 : which ≠ 1 := fun e1 => hne (by simp [e1])
      have h0 : which = 0 := by omega
      subst h0
      simp [pwm.set_servo, setServo]
    · rw [timer1ISR_of_active_one s e] at ht
      injection ht with ht
      subst ht
      rw [timer1ISR_of_active_one _ (by rw [fa]; exact e)]
      interval_cases which <;> simp [pwm.set_servo, setServo]
    · rw [timer1ISR_of_active_ge s e] at ht
      injection ht with ht
      subst ht
      rw [timer1ISR_of_active_ge _ (by rw [fa]; exact e)]
      have h0 : which ≠ 0 := fun e0 => hne (by simp [e0])
      have h1 : which = 1 := by omega
      subst h1
      simp [pwm.set_servo, setServo]

/-- The invocation that starts the addressed channel's pulse schedules its end
from the width stored by the preceding `set_servo`. -/
theorem timer1ISR_uses_tcnt (s t : State) (i : Fin ACTIVE_SERVOS)
    (ht : timer1ISR s = some t) (hi : t.active = (i.val : Int)) :
    t.OCR1A = ((t.TCNT1 + (s.servos i).tcnt) % 4294967296) % 65536 ∧
    t.PORTB.testBit (s.servos i).pin = decide ((s.servos i).pin < 8) := by
  have hlt : i.val < 2 := i.isLt
  have hcases : s.active < 0 ∨ s.active = 0 ∨ s.active = 1 ∨ 2 ≤ s.active := by omega
  rcases hcases with e | e | e | e
  · rw [timer1ISR_of_active_neg s e] at ht
    exact absurd ht (by simp)
  · rw [timer1ISR_of_active_zero s e] at ht
    injection ht with ht
    subst ht
    have h1 : i = 1 := by
      apply Fin.ext
      have : ((i.val : Nat) : Int) = 1 := hi.symm
      exact_mod_cast this
    subst h1
    simp [testBit_portSet]
  · rw [timer1ISR_of_active_one s e] at ht
    injection ht with ht
    subst ht
    have : ((i.val : Nat) : Int) = 2 := hi.symm
    omega
  · rw [timer1ISR_of_active_ge s e] at ht
    injection ht with ht
    subst ht
    have h0 : i = 0 := by
      apply Fin.ext
      have : ((i.val : Nat) : Int) = 0 := hi.symm
      exact_mod_cast this
    subst h0
    simp [testBit_portSet]

/-- C10: for every state and every argument, `set_servo` leaves `active`,
`PORTB`, `TCNT1` and the scheduled `OCR1A` unchanged, keeps `pin`, `min`, `max`
and `trim` of every channel and every field of every channel other than the
addressed one; a handler invocation that does not raise the addressed channel's
pin gives the same result whether the command is issued before or after it; and
the invocation that raises the addressed channel's pin schedules the end of the
pulse from the newly stored width. -/
theorem set_servo_keeps_pulse (s : State) (which us : Nat) :
    ((pwm.set_servo s which us).active = s.active ∧
      (pwm.set_servo s which us).PORTB = s.PORTB ∧
      (pwm.set_servo s which us).TCNT1 = s.TCNT1 ∧
      (pwm.set_servo s which us).OCR1A = s.OCR1A) ∧
    (∀ j : Fin ACTIVE_SERVOS,
      ((pwm.set_servo s which us).servos j).pin = (s.servos j).pin ∧
      ((pwm.set_servo s which us).servos j).min = (s.servos j).min ∧
      ((pwm.set_servo s which us).servos j).max = (s.servos j).max ∧
      ((pwm.set_servo s which us).servos j).trim = (s.servos j).trim) ∧
    (∀ j : Fin ACTIVE_SERVOS, j.val ≠ which →
      (pwm.set_servo s which us).servos j = s.servos j) ∧
    (∀ t : State, timer1ISR s = some t → t.active ≠ (which : Int) →
      timer1ISR (pwm.set_servo s which us) = some (pwm.set_servo t which us)) ∧
    (∀ (t : State) (i : Fin ACTIVE_SERVOS), i.val = which →
      timer1ISR (pwm.set_servo s which us) = some t → t.active = (i.val : Int) →
      t.OCR1A =
        ((t.TCNT1 + ((pwm.set_servo s which us).servos i).tcnt) % 4294967296) % 65536 ∧
      t.PORTB.testBit (s.servos i).pin = decide ((s.servos i).pin < 8)) := by
  obtain ⟨fa, fp, ft, fo, fother, fs⟩ := set_servo_frame s which us
  refine ⟨⟨fa, fp, ft, fo⟩, fs, fother, ?_, ?_⟩
  · intro t ht hne
    exact timer1ISR_set_servo_comm s t which us ht hne
  · intro t i _ ht hi
    have h := timer1ISR_uses_tcnt (pwm.set_servo s which us) t i ht hi
    rw [(fs i).1] at h
    exact h

/-- Witness of C10: channel 0 is commanded while channel 1 is being pulsed; the
next invocation ends the pass and commutes with the command, the one after it
starts channel 0's pulse with the new width of 3000 ticks. -/
theorem set_servo_keeps_pulse_witness :
    (pwm.set_servo endOfPulseState 0 1500).OCR1A = endOfPulseState.OCR1A ∧
    (∃ t, timer1ISR endOfPulseState = some t ∧ t.active ≠ ((0 : Nat) : Int) ∧
      timer1ISR (pwm.set_servo endOfPulseState 0 1500) = some (pwm.set_servo t 0 1500)) ∧
    (∃ t, timer1ISR (pwm.set_servo passCompleteState 0 1500) = some t ∧
      t.active = (((0 : Fin ACTIVE_SERVOS).val : Nat) : Int) ∧ t.OCR1A = 3000) := by
  refine ⟨(set_servo_keeps_pulse endOfPulseState 0 1500).1.2.2.2, ?_, ?_⟩
  · have h1 := timer1ISR_of_active_one endOfPulseState rfl
    exact ⟨_, h1, by decide,
      (set_servo_keeps_pulse endOfPulseState 0 1500).2.2.2.1 _ h1 (by decide)⟩
  · have h2 := timer1ISR_of_active_ge (pwm.set_servo passCompleteState 0 1500) (by decide)
    refine ⟨_, h2, rfl, ?_⟩
    rw [((set_servo_keeps_pulse passCompleteState 0 1500).2.2.2.2 _ 0 rfl h2 rfl).1]
    decide

/-! ### The handler and the channel table -/

/-- The handler is defined on every state whose index is not negative. -/
theorem timer1ISR_isSome (s : State) (h : 0 ≤ s.active) : (timer1ISR s).isSome = true := by
  have hcases : s.active = 0 ∨ s.active = 1 ∨ 2 ≤ s.active := by omega
  rcases hcases with e | e | e
  · rw [timer1ISR_of_active_zero s e]
    rfl
  · rw [timer1ISR_of_active_one s e]
    rfl
  · rw [timer1ISR_of_active_ge s e]
    rfl

/-- The handler never writes the interrupt flag. -/
theorem timer1ISR_SREG_I (s s' : State) (h : timer1ISR s = some s') :
    s'.SREG_I = s.SREG_I := by
  have hcases : s.active < 0 ∨ s.active = 0 ∨ s.active = 1 ∨ 2 ≤ s.active := by omega
  rcases hcases with e | e | e | e
  · rw [timer1ISR_of_active_neg s e] at h
    exact absurd h (by simp)
  · rw [timer1ISR_of_active_zero s e] at h
    injection h with h
    subst h
    rfl
  · rw [timer1ISR_of_active_one s e] at h
    injection h with h
    subst h
    rfl
  · rw [timer1ISR_of_active_ge s e] at h
    injection h with h
    subst h
    rfl

/-- C11: one invocation of `timer1ISR` leaves every field (`pin`, `tcnt`, `min`,
`max`, `trim`) of every channel descriptor unchanged; what it can change is
`active`, `PORTB`, `TCNT1` and `OCR1A` only (the interrupt flag is unchanged as
well).  The invocation is defined on every state with `0 ≤ active`, the states
in which its table accesses are inside the table. -/
theorem timer1ISR_reads_table (s : State) :
    (∀ s', timer1ISR s = some s' →
      (∀ j : Fin ACTIVE_SERVOS,
        (s'.servos j).pin = (s.servos j).pin ∧
        (s'.servos j).tcnt = (s.servos j).tcnt ∧
        (s'.servos j).min = (s.servos j).min ∧
        (s'.servos j).max = (s.servos j).max ∧
        (s'.servos j).trim = (s.servos j).trim) ∧
      s' = { s with active := s'.active, PORTB := s'.PORTB, TCNT1 := s'.TCNT1,
                    OCR1A := s'.OCR1A }) ∧
    (0 ≤ s.active → ∃ s', timer1ISR s = some s') := by
  constructor
  · intro s' h
    have hs := timer1ISR_servos s s' h
    have hi := timer1ISR_SREG_I s s' h
    refine ⟨fun j => by simp [hs], ?_⟩
    cases s'
    simp only at hs hi
    subst hs
    subst hi
    rfl
  · intro h
    exact Option.isSome_iff_exists.mp (timer1ISR_isSome s h)

/-- Witness of C11: the invocation that ends channel 1's pulse at tick 2800. -/
theorem timer1ISR_reads_table_witness :
    ∃ s', timer1ISR endOfPulseState = some s' ∧
      (∀ j : Fin ACTIVE_SERVOS,
        (s'.servos j).pin = (endOfPulseState.servos j).pin ∧
        (s'.servos j).tcnt = (endOfPulseState.servos j).tcnt ∧
        (s'.servos j).min = (endOfPulseState.servos j).min ∧
        (s'.servos j).max = (endOfPulseState.servos j).max ∧
        (s'.servos j).trim = (endOfPulseState.servos j).trim) := by
  obtain ⟨s', h⟩ := (timer1ISR_reads_table endOfPulseState).2 (by decide)
  exact ⟨s', h, ((timer1ISR_reads_table endOfPulseState).1 s' h).1⟩

/-! ### The critical section of `set_servo` -/

/-- C12 (the code departs from the claim): on every valid channel `set_servo`
stores the width while the interrupt flag is cleared, but it returns with the
flag set whatever its value on entry, because `sei()` follows
`SREG = saved_SREG`.  Entered with interrupts disabled (`disabledState`),
`set_servo 0 1500` returns with interrupts enabled. -/
theorem set_servo_enables_interrupts :
    (∀ (s : State) (ch : Fin ACTIVE_SERVOS) (us : Nat),
      (pwm.set_servo s ch.val us).SREG_I = true ∧
      (pwm.set_servo_steps s ch.val us).map (fun t => t.SREG_I)
        = [false, false, s.SREG_I, true] ∧
      (pwm.set_servo_steps s ch.val us).map (fun t => t.servos)
        = [s.servos, (pwm.set_servo s ch.val us).servos, (pwm.set_servo s ch.val us).servos,
            (pwm.set_servo s ch.val us).servos] ∧
      (pwm.set_servo_steps s ch.val us).getLast? = some (pwm.set_servo s ch.val us)) ∧
    disabledState.SREG_I = false ∧
    (pwm.set_servo disabledState 0 1500).SREG_I = true := by
  refine ⟨?_, by decide, by decide⟩
  intro s ch us
  have hv : ¬ ch.val ≥ ACTIVE_SERVOS := not_ge_of_fin ch
  refine ⟨?_, ?_, ?_, ?_⟩
  · rw [pwm.set_servo, dif_neg hv]
  · rw [pwm.set_servo_steps, dif_neg hv]
    rfl
  · rw [pwm.set_servo_steps, pwm.set_servo, dif_neg hv, dif_neg hv]
    rfl
  · rw [pwm.set_servo_steps, pwm.set_servo, dif_neg hv, dif_neg hv]
    rfl

/-! ### `connect` and the earlier configuration -/

/-- C13: on every valid channel and for every pin, `connect` stores the pin and
resets the bounds and the trim to `min = 1300`, `max = 1700`, `trim = 0`
whatever they were, keeps that channel's `tcnt` and every other channel; hence
`connect` followed by `set_servo` with a 32-bit width `w` stores
`2 * clamp w 1300 1700`. -/
theorem connect_resets_configuration (s : State) (ch : Fin ACTIVE_SERVOS) (pin w : Nat)
    (hw : w < 4294967296) :
    ((pwm.connect s ch.val pin).servos ch).pin = pin ∧
    ((pwm.connect s ch.val pin).servos ch).min = 1300 ∧
    ((pwm.connect s ch.val pin).servos ch).max = 1700 ∧
    ((pwm.connect s ch.val pin).servos ch).trim = 0 ∧
    ((pwm.connect s ch.val pin).servos ch).tcnt = (s.servos ch).tcnt ∧
    (∀ j : Fin ACTIVE_SERVOS, j ≠ ch → (pwm.connect s ch.val pin).servos j = s.servos j) ∧
    (((pwm.set_servo (pwm.connect s ch.val pin) ch.val w).servos ch).tcnt : Int)
      = 2 * clamp (w : Int) 1300 1700 := by
  have hc : ((pwm.connect s ch.val pin).servos ch).min = 1300 ∧
      ((pwm.connect s ch.val pin).servos ch).max = 1700 ∧
      ((pwm.connect s ch.val pin).servos ch).trim = 0 := by
    simp [pwm.connect, setServo, not_ge_of_fin]
  obtain ⟨h1, h2, h3⟩ := hc
  refine ⟨?_, h1, h2, h3, ?_, ?_, ?_⟩
  · simp [pwm.connect, setServo, not_ge_of_fin]
  · simp [pwm.connect, setServo, not_ge_of_fin]
  · intro j hj
    simp [pwm.connect, setServo, not_ge_of_fin, hj]
  · rw [set_servo_tcnt, h1, h2, h3]
    unfold clamp
    split_ifs <;> omega

/-- Witness of C13: channel 0 had bounds 900..2100 and trim 40; after `connect`
the width 1000 is stored as 2600 ticks. -/
theorem connect_resets_configuration_witness :
    (1000 : Nat) < 4294967296 ∧
    (configuredState.servos 0).min = 900 ∧ (configuredState.servos 0).max = 2100 ∧
    (configuredState.servos 0).trim = 40 ∧
    ((pwm.connect configuredState (0 : Fin ACTIVE_SERVOS).val 5).servos 0).min = 1300 ∧
    (((pwm.set_servo (pwm.connect configuredState (0 : Fin ACTIVE_SERVOS).val 5)
        (0 : Fin ACTIVE_SERVOS).val 1000).servos 0).tcnt : Int) = 2 * clamp (1000 : Nat) 1300 1700 :=
  ⟨by decide, by decide, by decide, by decide,
    (connect_resets_configuration configuredState 0 5 1000 (by decide)).2.1,
    (connect_resets_configuration configuredState 0 5 1000 (by decide)).2.2.2.2.2.2⟩

/-! ### The first pass after start-up -/

/-- C14 (as amended): from a state with `active = 0` (the static initialiser),
no channel pin high and the two channels connected to distinct pins of the port
(bit positions below 8), with any counter values `c1`, `c2` at the second and
third invocation: the first invocation leaves channel 0's pin low, which was
never raised, and raises channel 1's pin; the second lowers channel 1's pin and
enters the idle state `active = ACTIVE_SERVOS`; the third resets the counter to
0 and raises channel 0's pin for the first time. -/
theorem first_pass_skips_channel_zero (s : State)
    (hact : s.active = 0)
    (hlow : ∀ i, pinHigh s i = false)
    (hpins : (s.servos 0).pin ≠ (s.servos 1).pin)
    (hp0 : (s.servos 0).pin < 8) (hp1 : (s.servos 1).pin < 8)
    (c1 c2 : Nat) :
    ∃ s1 s2 s3 : State,
      timer1ISR s = some s1 ∧
      timer1ISR (count s1 c1) = some s2 ∧
      timer1ISR (count s2 c2) = some s3 ∧
      (s1.active = 1 ∧
        s1.PORTB = portSet (portClear s.PORTB (s.servos 0).pin) (s.servos 1).pin ∧
        pinHigh s1 0 = false ∧ pinHigh s1 1 = true) ∧
      (s2.active = ACTIVE_SERVOS ∧ s2.PORTB = portClear s1.PORTB (s.servos 1).pin ∧
        pinHigh s2 0 = false ∧ pinHigh s2 1 = false) ∧
      (s3.active = 0 ∧ s3.TCNT1 = 0 ∧ s3.PORTB = portSet s2.PORTB (s.servos 0).pin ∧
        pinHigh s3 0 = true ∧ pinHigh s3 1 = false) := by
  have l0 : s.PORTB.testBit (s.servos 0).pin = false := hlow 0
  have l1 : s.PORTB.testBit (s.servos 1).pin = false := hlow 1
  have hne : ¬ (s.servos 1).pin = (s.servos 0).pin := fun e => hpins e.symm
  refine ⟨_, _, _, timer1ISR_of_active_zero s hact, timer1ISR_of_active_one _ rfl,
    timer1ISR_of_active_ge _ (le_refl _), ⟨rfl, rfl, ?_, ?_⟩, ⟨rfl, rfl, ?_, ?_⟩,
    ⟨rfl, rfl, rfl, ?_, ?_⟩⟩
  · simp [pinHigh, testBit_portSet, testBit_portClear, hne]
  · simp [pinHigh, testBit_portSet, hp1]
  · simp [pinHigh, count, testBit_portSet, testBit_portClear, hne]
  · simp [pinHigh, count, testBit_portClear]
  · simp [pinHigh, count, testBit_portSet, hp0]
  · simp [pinHigh, count, testBit_portSet, testBit_portClear, hpins]

/-- Witness of C14 (as amended): the statically initialised globals after the
two `connect` calls of start-up (pins 1 and 2): `PORTB` is 4 after the first
invocation, 0 after the second and 2 after the third. -/
theorem first_pass_skips_channel_zero_witness :
    (connectedState.active = 0 ∧ (∀ i, pinHigh connectedState i = false) ∧
      (connectedState.servos 0).pin ≠ (connectedState.servos 1).pin ∧
      (connectedState.servos 0).pin < 8 ∧ (connectedState.servos 1).pin < 8) ∧
    ∃ s1 s2 s3 : State,
      timer1ISR connectedState = some s1 ∧
      timer1ISR (count s1 1500) = some s2 ∧
      timer1ISR (count s2 40000) = some s3 ∧
      (s1.active = 1 ∧ s1.PORTB = 4 ∧ pinHigh s1 0 = false ∧ pinHigh s1 1 = true) ∧
      (s2.active = ACTIVE_SERVOS ∧ s2.PORTB = 0 ∧
        pinHigh s2 0 = false ∧ pinHigh s2 1 = false) ∧
      (s3.active = 0 ∧ s3.TCNT1 = 0 ∧ s3.PORTB = 2 ∧
        pinHigh s3 0 = true ∧ pinHigh s3 1 = false) := by
  refine ⟨by decide, ?_⟩
  obtain ⟨s1, s2, s3, h1, h2, h3, ⟨a1, p1, x1, y1⟩, ⟨a2, p2, x2, y2⟩,
      ⟨a3, t3, p3, x3, y3⟩⟩ :=
    first_pass_skips_channel_zero connectedState (by decide) (by decide) (by decide)
      (by decide) (by decide) 1500 40000
  have e1 : s1.PORTB = 4 := by rw [p1]; decide
  have e2 : s2.PORTB = 0 := by rw [p2, e1]; decide
  have e3 : s3.PORTB = 2 := by rw [p3, e2]; decide
  exact ⟨s1, s2, s3, h1, h2, h3, ⟨a1, e1, x1, y1⟩, ⟨a2, e2, x2, y2⟩, ⟨a3, t3, e3, x3, y3⟩⟩

/-- C14 fails as stated: in the statically initialised state itself
(`active = 0`, `PORTB = 0`, so no pin is high) both table entries have pin 0.
The first invocation clears bit 0 for channel 0 and sets it again for channel
1, so channel 0's pin is high after the first invocation already (`PORTB = 1`);
it is low after the second (`PORTB = 0`) and high after the third
(`PORTB = 1`). -/
theorem first_pass_shared_pin :
    (initial 0 0 0 true).active = 0 ∧
    (∀ i, pinHigh (initial 0 0 0 true) i = false) ∧
    ((initial 0 0 0 true).servos 0).pin = 0 ∧ ((initial 0 0 0 true).servos 1).pin = 0 ∧
    (run [Op.timer1ISR] (initial 0 0 0 true)).map
        (fun s => (s.active, s.PORTB, pinHigh s 0, pinHigh s 1)) = some (1, 1, true, true) ∧
    (run [Op.timer1ISR, Op.timer1ISR] (initial 0 0 0 true)).map
        (fun s => (s.active, s.PORTB, pinHigh s 0, pinHigh s 1)) = some (2, 0, false, false) ∧
    (run [Op.timer1ISR, Op.timer1ISR, Op.timer1ISR] (initial 0 0 0 true)).map
        (fun s => (s.active, s.PORTB, pinHigh s 0, pinHigh s 1)) = some (0, 1, true, true) := by
  refine ⟨rfl, ?_, rfl, rfl, ?_, ?_, ?_⟩
  · decide
  · decide
  · decide
  · decide

end ServoPwm
